import Mathlib

/-!
Shallow embedding of the quantum-finance-predictions repository
(src/data/data.py, src/QNN/train-QNN-fast.py, src/server/backend.py)
for verification of its natural-language specification.

Numeric cells are modelled as exact rationals `ℚ` (the Python code uses
float64; none of the verified properties depends on rounding).  A missing
cell (pandas `NaN`) is modelled as `none : Option ℚ`.  Library operations
that the source delegates to (pandas `pct_change`/`rolling`/`dropna`,
sklearn `MinMaxScaler`, Flask request dispatch) are embedded by their
documented semantics on the data the source feeds them; the quantum-circuit
forward pass, the Adam update and CSV parsing are kept abstract as function
parameters, since no claim depends on their values.
-/

set_option autoImplicit false

namespace QFP

/-- A raw OHLCV row as fetched / uploaded: any cell may be missing (NaN). -/
structure RawRow where
  «open» : Option ℚ
  high : Option ℚ
  low : Option ℚ
  close : Option ℚ
  volume : Option ℚ
  deriving DecidableEq, Repr

/-- An OHLCV row after `dropna`: every cell present. -/
structure OhlcvRow where
  «open» : ℚ
  high : ℚ
  low : ℚ
  close : ℚ
  volume : ℚ
  deriving DecidableEq, Repr

instance : Inhabited OhlcvRow := ⟨⟨0, 0, 0, 0, 0⟩⟩

instance : Inhabited RawRow := ⟨⟨none, none, none, none, none⟩⟩

/-- A fully derived feature row: the five OHLCV columns plus the three
columns `daily_return`, `5_day_moving_avg`, `30_day_moving_avg` added by
`preprocess_data` (leading digits are spelled out in the Lean field names). -/
structure FeatRow where
  «open» : ℚ
  high : ℚ
  low : ℚ
  close : ℚ
  volume : ℚ
  daily_return : ℚ
  five_day_moving_avg : ℚ
  thirty_day_moving_avg : ℚ
  deriving DecidableEq, Repr

instance : Inhabited FeatRow := ⟨⟨0, 0, 0, 0, 0, 0, 0, 0⟩⟩

/-- `df.dropna()` (data.py line 65): keep exactly the rows in which every
cell is present. -/
def dropna (df : List RawRow) : List OhlcvRow :=
  df.filterMap fun r =>
    match r.«open», r.high, r.low, r.close, r.volume with
    | some o, some h, some l, some c, some v => some ⟨o, h, l, c, v⟩
    | _, _, _, _, _ => none

/-- `df['close'].pct_change()` (data.py line 69) at 0-based position `i`:
undefined (NaN) on the first row, otherwise the fractional change from the
prior row.  Division is exact rational division; the float `inf`/`NaN` edge
case of a zero prior close is outside this model (stock prices are
positive). -/
def pctChange (xs : List ℚ) (i : Nat) : Option ℚ :=
  if i = 0 then none
  else some ((xs.getD i 0 - xs.getD (i - 1) 0) / xs.getD (i - 1) 0)

/-- `df['close'].rolling(window=k).mean()` (data.py lines 70-71) at 0-based
position `i`: undefined (NaN) until a full window of `k` observations is
available, then the mean of the trailing window. -/
def rollingMean (k : Nat) (xs : List ℚ) (i : Nat) : Option ℚ :=
  if k ≤ i + 1 then some (((xs.drop (i + 1 - k)).take k).sum / (k : ℚ)) else none

/-- Smallest element of a column, `0` for an empty column (sklearn
`X.min(axis=0)` on the fitted batch; the empty case never arises in a fit). -/
def colMin : List ℚ → ℚ
  | [] => 0
  | x :: xs => xs.foldl min x

/-- Largest element of a column, `0` for an empty column. -/
def colMax : List ℚ → ℚ
  | [] => 0
  | x :: xs => xs.foldl max x

/-- One cell of sklearn `MinMaxScaler(feature_range=(0, 1))`: the scale
factor is `1 / (max - min)`, except that a zero range is replaced by `1`
(sklearn `_handle_zeros_in_scale`), so a constant column is mapped to `0`,
not divided by zero. -/
def mmScale (lo hi x : ℚ) : ℚ :=
  (x - lo) * (if hi = lo then 1 else 1 / (hi - lo))

/-- `MinMaxScaler(feature_range=(0, 1)).fit_transform` on one column:
rescale every entry by the min/max observed in this same batch. -/
def scaleColumn (xs : List ℚ) : List ℚ :=
  xs.map (mmScale (colMin xs) (colMax xs))

/-- The batch min-max scaling step of `preprocess_data` (data.py lines
76-80): each of the eight numeric columns is rescaled independently using
its own min/max over the current batch. -/
def scaleRows (rows : List FeatRow) : List FeatRow :=
  let o := scaleColumn (rows.map fun r => r.«open»)
  let h := scaleColumn (rows.map fun r => r.high)
  let l := scaleColumn (rows.map fun r => r.low)
  let c := scaleColumn (rows.map fun r => r.close)
  let v := scaleColumn (rows.map fun r => r.volume)
  let dr := scaleColumn (rows.map fun r => r.daily_return)
  let m5 := scaleColumn (rows.map fun r => r.five_day_moving_avg)
  let m30 := scaleColumn (rows.map fun r => r.thirty_day_moving_avg)
  (List.range rows.length).map fun i =>
    ⟨o.getD i 0, h.getD i 0, l.getD i 0, c.getD i 0, v.getD i 0,
     dr.getD i 0, m5.getD i 0, m30.getD i 0⟩

/-- `preprocess_data(df, scale)` (data.py lines 61-82): drop rows with
missing cells, derive `daily_return` and the 5- and 30-day moving averages
of `close`, drop the rows on which a derived column is NaN, and, when
`scale` is set, min-max scale the eight numeric columns over the batch. -/
def preprocess_data (df : List RawRow) (scale : Bool) : List FeatRow :=
  let d := dropna df
  let closes := d.map OhlcvRow.close
  let rows := (List.range d.length).filterMap fun i =>
    match pctChange closes i, rollingMean 5 closes i, rollingMean 30 closes i with
    | some dr, some m5, some m30 =>
      let r := d.getD i default
      some ⟨r.«open», r.high, r.low, r.close, r.volume, dr, m5, m30⟩
    | _, _, _ => none
  if scale then scaleRows rows else rows

/-- Every cell of every row is present (the "no pre-existing missing
values" hypothesis of the row-count property). -/
def allPresent (df : List RawRow) : Prop :=
  ∀ r ∈ df, r.«open».isSome ∧ r.high.isSome ∧ r.low.isSome ∧
    r.close.isSome ∧ r.volume.isSome

instance (df : List RawRow) : Decidable (allPresent df) := by
  unfold allPresent; infer_instance

/-- Force the cells of a row known to be all-present. -/
def forceRow (r : RawRow) : OhlcvRow :=
  ⟨r.«open».getD 0, r.high.getD 0, r.low.getD 0, r.close.getD 0, r.volume.getD 0⟩

/-- The feature row that `preprocess_data` builds at retained index `i` of
the cleaned table `d` (only meaningful for `29 ≤ i < d.length`). -/
def featAt (d : List OhlcvRow) (i : Nat) : FeatRow :=
  let closes := d.map OhlcvRow.close
  let r := d.getD i default
  ⟨r.«open», r.high, r.low, r.close, r.volume,
   (closes.getD i 0 - closes.getD (i - 1) 0) / closes.getD (i - 1) 0,
   ((closes.drop (i + 1 - 5)).take 5).sum / (5 : ℚ),
   ((closes.drop (i + 1 - 30)).take 30).sum / (30 : ℚ)⟩

/-- A synthetic all-present input row: every cell holds `j + 1`. -/
def constRow (j : Nat) : RawRow :=
  ⟨some (j + 1 : ℚ), some (j + 1 : ℚ), some (j + 1 : ℚ),
   some (j + 1 : ℚ), some (j + 1 : ℚ)⟩

/-- A synthetic clean table of `n` rows with strictly increasing prices. -/
def syntheticDf (n : Nat) : List RawRow :=
  (List.range n).map constRow

/-! ## Data Fetcher (data.py, `fetch_stock_data`) -/

/-- The JSON body the market-data provider returns: the key
`Time Series (Daily)` may be absent, and an optional `Note` field carries
the provider's diagnostic text.  Rows are keyed by date (modelled as a
natural number); string-to-number parsing of the cells is abstracted away. -/
structure ApiResponse where
  timeSeriesDaily : Option (List (Nat × RawRow))
  note : Option String

/-- `fetch_stock_data` (data.py lines 19-58) for the default
`interval=daily` path, applied to the provider's response: raise when the
`Time Series (Daily)` key is absent, with the provider's `Note` text (or
the fixed fallback `Unknown error`) in the message; otherwise return the
rows sorted by date ascending (`df.sort_index()`). -/
def fetch_stock_data (symbol : String) (resp : ApiResponse) :
    Except String (List RawRow) :=
  match resp.timeSeriesDaily with
  | none =>
    .error ("Error fetching data for " ++ symbol ++ ": " ++
      resp.note.getD "Unknown error")
  | some ts =>
    .ok ((ts.mergeSort (fun a b => a.1 ≤ b.1)).map Prod.snd)

/-! ## Inference Service (backend.py) -/

/-- A pandas DataFrame as the server sees it: named numeric columns.  The
special `index` name stands for the frame's index column when present. -/
structure Table where
  cols : List (String × List ℚ)
  deriving DecidableEq, Repr

/-- Column lookup, `df[c]` for a single column name: `none` models the
`KeyError` case. -/
def Table.get (t : Table) (c : String) : Option (List ℚ) :=
  (t.cols.find? fun p => p.1 == c).map Prod.snd

/-- Number of rows of the frame. -/
def Table.nRows : Table → Nat
  | ⟨[]⟩ => 0
  | ⟨p :: _⟩ => p.2.length

/-- `df[c] = v`: replace the column if it exists, else append it. -/
def Table.setCol (t : Table) (c : String) (v : List ℚ) : Table :=
  if t.cols.any fun p => p.1 == c then
    ⟨t.cols.map fun p => if p.1 == c then (c, v) else p⟩
  else ⟨t.cols ++ [(c, v)]⟩

/-- The eight feature columns required by `predict_image`
(backend.py line 83). -/
def features : List String :=
  ["open", "high", "low", "close", "volume", "daily_return",
   "5_day_moving_avg", "30_day_moving_avg"]

/-- `df[features].values` (backend.py line 84): the row-major matrix of the
selected columns, or the pandas `KeyError` (its message names the missing
columns; quoting of the names is suppressed in this model) when any
requested column is absent. -/
def selectRows (t : Table) (cs : List String) :
    Except String (List (List ℚ)) :=
  match cs.filter fun c => (t.get c).isNone with
  | [] =>
    .ok ((List.range t.nRows).map fun i =>
      cs.map fun c => ((t.get c).getD []).getD i 0)
  | missing =>
    .error ("[" ++ String.intercalate ", " missing ++ "] not in index")

/-- The rendered line chart that `create_graph` produces. -/
structure Chart where
  xs : List ℚ
  ys : List ℚ
  title : String
  deriving DecidableEq, Repr

/-- `create_graph(df, x_column, y_column, title)` (backend.py lines 54-69):
plot `df[x_column]` against `df[y_column]`; a missing column raises the
pandas `KeyError` naming it. -/
def create_graph (t : Table) (x_column y_column title : String) :
    Except String Chart :=
  match t.get x_column with
  | none => .error x_column
  | some xs =>
    match t.get y_column with
    | none => .error y_column
    | some ys => .ok ⟨xs, ys, title⟩

/-- An HTTP response of the Flask app: a 200 payload, or a
`jsonify(error), 400` client error, or a `jsonify(error), 500` caught
exception. -/
inductive HttpResult (α : Type) where
  | success (val : α)
  | clientError (msg : String)
  | serverError (msg : String)
  deriving DecidableEq, Repr

/-- HTTP status code of a response. -/
def HttpResult.status {α : Type} : HttpResult α → Nat
  | .success _ => 200
  | .clientError _ => 400
  | .serverError _ => 500

/-- The string carried in the `error` field of the JSON body, when the
response is an error response. -/
def HttpResult.errorBody {α : Type} : HttpResult α → Option String
  | .success _ => none
  | .clientError m => some m
  | .serverError m => some m

/-- A `POST /predict_image` request: the part uploaded under the key
`file`, if any, as its raw content. -/
structure UploadReq where
  file : Option String

/-- The body of the `try` block of `predict_image` after the upload check
(backend.py lines 79-95): parse the CSV, select the eight feature columns,
run the model forward pass on every row, attach the `predictions` column,
and render the chart.  `readCsv` abstracts `pd.read_csv`, `forward`
abstracts the loaded model applied to one row, `w` its weight vector. -/
def predictBody (forward : List ℚ → List ℚ → ℚ) (w : List ℚ)
    (readCsv : String → Except String Table) (content : String) :
    Except String Chart := do
  let df ← readCsv content
  let X ← selectRows df features
  let preds := X.map (forward w)
  let df2 := df.setCol "predictions" preds
  create_graph df2 "index" "predictions" "Predicted Stock Prices"

/-- The `predict_image` route handler (backend.py lines 72-97): 400 when no
file is uploaded, otherwise the body runs under a catch-all `except` that
converts any raised exception `e` into `jsonify(error=str(e)), 500`. -/
def predict_image (forward : List ℚ → List ℚ → ℚ) (w : List ℚ)
    (readCsv : String → Except String Table) (req : UploadReq) :
    HttpResult Chart :=
  match req.file with
  | none => .clientError "No file uploaded."
  | some content =>
    match predictBody forward w readCsv content with
    | .ok chart => .success chart
    | .error e => .serverError e

/-- The eight-column frame built from preprocessed feature rows, as handed
to `create_graph` by `fetch_stock_image` (the frame's date index is not a
column, so a lookup of `index` on it fails, as in pandas). -/
def featTable (rows : List FeatRow) : Table :=
  ⟨[("open", rows.map fun r => r.«open»),
    ("high", rows.map fun r => r.high),
    ("low", rows.map fun r => r.low),
    ("close", rows.map fun r => r.close),
    ("volume", rows.map fun r => r.volume),
    ("daily_return", rows.map fun r => r.daily_return),
    ("5_day_moving_avg", rows.map fun r => r.five_day_moving_avg),
    ("30_day_moving_avg", rows.map fun r => r.thirty_day_moving_avg)]⟩

/-- A `GET /fetch_stock_image` request: the `ticker` query parameter, which
`request.args.get` returns as `None` when absent. -/
structure FetchRequest where
  ticker : Option String

/-- The `fetch_stock_image` route handler (backend.py lines 100-120):
`if not ticker` (absent or empty string) yields the 400 response before any
fetch; otherwise fetch, preprocess and chart under the catch-all `except`.
`provider` abstracts the network: the response the provider would give for
a ticker. -/
def fetch_stock_image (provider : String → ApiResponse) (req : FetchRequest) :
    HttpResult Chart :=
  match (match req.ticker with
         | none => none
         | some t => if t = "" then none else some t) with
  | none => .clientError "Ticker symbol is required."
  | some ticker =>
    match (do
      let df ← fetch_stock_data ticker (provider ticker)
      let dfp := preprocess_data df true
      create_graph (featTable dfp) "index" "close" (ticker ++ " Stock Prices") :
      Except String Chart) with
    | .ok chart => .success chart
    | .error e => .serverError e

/-- Path of the persisted model weights (backend.py line 46). -/
def MODEL_PATH : String := "../model/quantum_nn_model.pth"

/-- The in-process service state after the import-time model setup:
the weight vector the global model holds, and what was printed. -/
structure ServerState where
  weights : List ℚ
  log : List String

/-- The import-time model-loading block of backend.py (lines 41-51):
the model is assembled with randomly initialized weights `initW`; if the
file exists at `MODEL_PATH` on the file system `fs`, its weights replace
them, else a message is printed and the random weights are kept.  Either
way the service starts (the block raises nothing). -/
def startup (initW : List ℚ) (fs : String → Option (List ℚ)) : ServerState :=
  match fs MODEL_PATH with
  | some w => ⟨w, ["Model loaded successfully."]⟩
  | none =>
    ⟨initW, ["Model file not found. Ensure the model is trained and saved."]⟩

/-! ## Trainer (train-QNN-fast.py, `train_qnn`) -/

/-- `train_qnn(X_train, y_train, num_qubits, epochs, learning_rate)`
(train-QNN-fast.py lines 56-87): the training loop.  One epoch is
forward pass, loss, backward pass and Adam update; `step` abstracts that
whole library-delegated epoch, mapping the current model parameters to the
updated parameters together with the scalar loss recorded for the epoch
(`loss.item()` is computed on the pre-update parameters, as in the source).
`model0` is the freshly assembled model.  The loop runs
`for epoch in range(epochs)` and appends one loss per epoch. -/
def train_qnn {α : Type} (step : α → α × ℚ) (model0 : α) (epochs : Nat) :
    α × List ℚ :=
  (List.range epochs).foldl
    (fun st _ => ((step st.1).1, st.2 ++ [(step st.1).2]))
    (model0, [])

/-- The parameter update an epoch performs, forgetting the loss. -/
def stepModel {α : Type} (step : α → α × ℚ) (m : α) : α :=
  (step m).1

/-- A concrete uploaded table that has seven of the eight required feature
columns (plus an index column) but is missing `volume`. -/
def missingVolumeTable : Table :=
  ⟨[("open", [1]), ("high", [1]), ("low", [1]), ("close", [1]),
    ("daily_return", [0]), ("5_day_moving_avg", [1]),
    ("30_day_moving_avg", [1]), ("index", [0])]⟩

/-! ## Helper lemmas: folded minima and maxima of a column -/

lemma foldl_min_le_init (xs : List ℚ) (a : ℚ) : xs.foldl min a ≤ a := by
  induction xs generalizing a with
  | nil => exact le_refl a
  | cons x xs ih =>
    exact le_trans (ih (min a x)) (min_le_left a x)

lemma foldl_min_le_mem {x : ℚ} {xs : List ℚ} (h : x ∈ xs) (a : ℚ) :
    xs.foldl min a ≤ x := by
  induction xs generalizing a with
  | nil => cases h
  | cons y ys ih =>
    rcases List.mem_cons.1 h with rfl | hm
    · exact le_trans (foldl_min_le_init ys (min a x)) (min_le_right a x)
    · exact ih hm (min a y)

lemma le_foldl_min {c a : ℚ} {xs : List ℚ} (hca : c ≤ a)
    (h : ∀ x ∈ xs, c ≤ x) : c ≤ xs.foldl min a := by
  induction xs generalizing a with
  | nil => exact hca
  | cons y ys ih =>
    exact ih (le_min hca (h y (List.mem_cons_self y ys)))
      fun x hx => h x (List.mem_cons_of_mem _ hx)

lemma foldl_min_mem (xs : List ℚ) (a : ℚ) :
    xs.foldl min a = a ∨ xs.foldl min a ∈ xs := by
  induction xs generalizing a with
  | nil => exact Or.inl rfl
  | cons x xs ih =>
    rcases ih (min a x) with h | h
    · rcases min_choice a x with h2 | h2
      · exact Or.inl (by rw [List.foldl_cons, h, h2])
      · exact Or.inr (by rw [List.foldl_cons, h, h2]; exact List.mem_cons_self x xs)
    · exact Or.inr (List.mem_cons_of_mem x h)

lemma init_le_foldl_max (xs : List ℚ) (a : ℚ) : a ≤ xs.foldl max a := by
  induction xs generalizing a with
  | nil => exact le_refl a
  | cons x xs ih =>
    exact le_trans (le_max_left a x) (ih (max a x))

lemma mem_le_foldl_max {x : ℚ} {xs : List ℚ} (h : x ∈ xs) (a : ℚ) :
    x ≤ xs.foldl max a := by
  induction xs generalizing a with
  | nil => cases h
  | cons y ys ih =>
    rcases List.mem_cons.1 h with rfl | hm
    · exact le_trans (le_max_right a x) (init_le_foldl_max ys (max a x))
    · exact ih hm (max a y)

lemma foldl_max_le {c a : ℚ} {xs : List ℚ} (hac : a ≤ c)
    (h : ∀ x ∈ xs, x ≤ c) : xs.foldl max a ≤ c := by
  induction xs generalizing a with
  | nil => exact hac
  | cons y ys ih =>
    exact ih (max_le hac (h y (List.mem_cons_self y ys)))
      fun x hx => h x (List.mem_cons_of_mem _ hx)

lemma foldl_max_mem (xs : List ℚ) (a : ℚ) :
    xs.foldl max a = a ∨ xs.foldl max a ∈ xs := by
  induction xs generalizing a with
  | nil => exact Or.inl rfl
  | cons x xs ih =>
    rcases ih (max a x) with h | h
    · rcases max_choice a x with h2 | h2
      · exact Or.inl (by rw [List.foldl_cons, h, h2])
      · exact Or.inr (by rw [List.foldl_cons, h, h2]; exact List.mem_cons_self x xs)
    · exact Or.inr (List.mem_cons_of_mem x h)

lemma colMin_le_of_mem {x : ℚ} {xs : List ℚ} (h : x ∈ xs) : colMin xs ≤ x := by
  cases xs with
  | nil => cases h
  | cons y ys =>
    rcases List.mem_cons.1 h with rfl | hm
    · exact foldl_min_le_init ys x
    · exact foldl_min_le_mem hm y

lemma le_colMin {c : ℚ} {xs : List ℚ} (hne : xs ≠ [])
    (h : ∀ x ∈ xs, c ≤ x) : c ≤ colMin xs := by
  cases xs with
  | nil => exact absurd rfl hne
  | cons y ys =>
    exact le_foldl_min (h y (List.mem_cons_self y ys))
      fun x hx => h x (List.mem_cons_of_mem _ hx)

lemma colMin_mem {xs : List ℚ} (hne : xs ≠ []) : colMin xs ∈ xs := by
  cases xs with
  | nil => exact absurd rfl hne
  | cons y ys =>
    rcases foldl_min_mem ys y with h | h
    · rw [colMin, h]; exact List.mem_cons_self y ys
    · exact List.mem_cons_of_mem y h

lemma le_colMax_of_mem {x : ℚ} {xs : List ℚ} (h : x ∈ xs) : x ≤ colMax xs := by
  cases xs with
  | nil => cases h
  | cons y ys =>
    rcases List.mem_cons.1 h with rfl | hm
    · exact init_le_foldl_max ys x
    · exact mem_le_foldl_max hm y

lemma colMax_le {c : ℚ} {xs : List ℚ} (hne : xs ≠ [])
    (h : ∀ x ∈ xs, x ≤ c) : colMax xs ≤ c := by
  cases xs with
  | nil => exact absurd rfl hne
  | cons y ys =>
    exact foldl_max_le (h y (List.mem_cons_self y ys))
      fun x hx => h x (List.mem_cons_of_mem _ hx)

lemma colMax_mem {xs : List ℚ} (hne : xs ≠ []) : colMax xs ∈ xs := by
  cases xs with
  | nil => exact absurd rfl hne
  | cons y ys =>
    rcases foldl_max_mem ys y with h | h
    · rw [colMax, h]; exact List.mem_cons_self y ys
    · exact List.mem_cons_of_mem y h

lemma colMin_le_colMax {xs : List ℚ} (hne : xs ≠ []) :
    colMin xs ≤ colMax xs :=
  le_colMax_of_mem (colMin_mem hne)

lemma colMin_lt_colMax {xs : List ℚ} {a b : ℚ} (ha : a ∈ xs) (hb : b ∈ xs)
    (hab : a ≠ b) : colMin xs < colMax xs := by
  rcases lt_or_eq_of_le (colMin_le_colMax (List.ne_nil_of_mem ha)) with h | h
  · exact h
  · exact absurd
      (le_antisymm
        (le_trans (le_colMax_of_mem ha) (h ▸ colMin_le_of_mem hb))
        (le_trans (le_colMax_of_mem hb) (h ▸ colMin_le_of_mem ha)))
      hab

/-! ## Helper lemmas: the min-max scaler -/

lemma mem_scaleColumn_nonneg {xs : List ℚ} {y : ℚ}
    (hy : y ∈ scaleColumn xs) : 0 ≤ y := by
  obtain ⟨x, hx, rfl⟩ := List.mem_map.1 hy
  have h1 : colMin xs ≤ x := colMin_le_of_mem hx
  unfold mmScale
  by_cases h : colMax xs = colMin xs
  · rw [if_pos h, mul_one]; linarith
  · rw [if_neg h]
    have hlt : colMin xs < colMax xs :=
      lt_of_le_of_ne (colMin_le_colMax (List.ne_nil_of_mem hx)) (Ne.symm h)
    have h2 : (0 : ℚ) < colMax xs - colMin xs := by linarith
    exact mul_nonneg (by linarith) (le_of_lt (by positivity))

lemma mem_scaleColumn_le_one {xs : List ℚ} {y : ℚ}
    (hy : y ∈ scaleColumn xs) : y ≤ 1 := by
  obtain ⟨x, hx, rfl⟩ := List.mem_map.1 hy
  have h1 : colMin xs ≤ x := colMin_le_of_mem hx
  have h2 : x ≤ colMax xs := le_colMax_of_mem hx
  unfold mmScale
  by_cases h : colMax xs = colMin xs
  · rw [if_pos h, mul_one]; linarith
  · rw [if_neg h]
    have hlt : colMin xs < colMax xs :=
      lt_of_le_of_ne (colMin_le_colMax (List.ne_nil_of_mem hx)) (Ne.symm h)
    have h3 : (0 : ℚ) < colMax xs - colMin xs := by linarith
    rw [mul_one_div, div_le_one h3]
    linarith

lemma zero_mem_scaleColumn {xs : List ℚ} (hne : xs ≠ []) :
    (0 : ℚ) ∈ scaleColumn xs := by
  refine List.mem_map.2 ⟨colMin xs, colMin_mem hne, ?_⟩
  unfold mmScale
  rw [sub_self, zero_mul]

lemma one_mem_scaleColumn {xs : List ℚ} {a b : ℚ} (ha : a ∈ xs) (hb : b ∈ xs)
    (hab : a ≠ b) : (1 : ℚ) ∈ scaleColumn xs := by
  refine List.mem_map.2 ⟨colMax xs, colMax_mem (List.ne_nil_of_mem ha), ?_⟩
  have hlt : colMin xs < colMax xs := colMin_lt_colMax ha hb hab
  unfold mmScale
  rw [if_neg (ne_of_gt hlt), mul_one_div, div_self (by linarith)]

lemma scaleColumn_ne_nil {xs : List ℚ} (hne : xs ≠ []) :
    scaleColumn xs ≠ [] := by
  intro h
  exact hne (List.map_eq_nil_iff.1 h)

lemma scaleColumn_colMin {xs : List ℚ} (hne : xs ≠ []) :
    colMin (scaleColumn xs) = 0 :=
  le_antisymm (colMin_le_of_mem (zero_mem_scaleColumn hne))
    (le_colMin (scaleColumn_ne_nil hne) fun _ hy => mem_scaleColumn_nonneg hy)

lemma scaleColumn_colMax {xs : List ℚ} {a b : ℚ} (ha : a ∈ xs) (hb : b ∈ xs)
    (hab : a ≠ b) : colMax (scaleColumn xs) = 1 :=
  le_antisymm
    (colMax_le (scaleColumn_ne_nil (List.ne_nil_of_mem ha))
      fun _ hy => mem_scaleColumn_le_one hy)
    (le_colMax_of_mem (one_mem_scaleColumn ha hb hab))

lemma colMin_const {xs : List ℚ} {c : ℚ} (hne : xs ≠ [])
    (h : ∀ x ∈ xs, x = c) : colMin xs = c :=
  le_antisymm (h _ (colMin_mem hne) ▸ le_refl _)
    (le_colMin hne fun x hx => (h x hx).symm ▸ le_refl _)

lemma colMax_const {xs : List ℚ} {c : ℚ} (hne : xs ≠ [])
    (h : ∀ x ∈ xs, x = c) : colMax xs = c :=
  le_antisymm (colMax_le hne fun x hx => (h x hx).symm ▸ le_refl _)
    (h _ (colMax_mem hne) ▸ le_refl _)

/-! ## Helper lemmas: the shape of `preprocess_data` -/

lemma filterMap_range_eq {α : Type} (F : Nat → Option α) (w : Nat → α)
    (k : Nat) (h : ∀ i, F i = if k ≤ i then some (w i) else none) (m : Nat) :
    (List.range m).filterMap F = (List.range (m - k)).map fun j => w (k + j) := by
  induction m with
  | zero => simp
  | succ n ih =>
    rw [List.range_succ, List.filterMap_append, ih]
    by_cases hk : k ≤ n
    · have hm : n + 1 - k = (n - k) + 1 := by omega
      have hn : k + (n - k) = n := by omega
      rw [hm, List.range_succ, List.map_append]
      simp only [List.filterMap_cons, List.filterMap_nil, h n, if_pos hk,
        List.map_cons, List.map_nil, hn]
    · have hm : n + 1 - k = 0 := by omega
      have hm2 : n - k = 0 := by omega
      rw [hm, hm2]
      simp only [List.filterMap_cons, List.filterMap_nil, h n, if_neg hk,
        List.range_zero, List.map_nil, List.append_nil]

lemma dropna_allPresent {df : List RawRow} (h : allPresent df) :
    dropna df = df.map forceRow := by
  induction df with
  | nil => rfl
  | cons r rs ih =>
    have hr := h r (List.mem_cons_self r rs)
    obtain ⟨o, ho⟩ := Option.isSome_iff_exists.1 hr.1
    obtain ⟨hi, hh⟩ := Option.isSome_iff_exists.1 hr.2.1
    obtain ⟨l, hl⟩ := Option.isSome_iff_exists.1 hr.2.2.1
    obtain ⟨c, hc⟩ := Option.isSome_iff_exists.1 hr.2.2.2.1
    obtain ⟨v, hv⟩ := Option.isSome_iff_exists.1 hr.2.2.2.2
    rw [dropna, List.filterMap_cons, ho, hh, hl, hc, hv, List.map_cons]
    rw [← dropna, ih fun x hx => h x (List.mem_cons_of_mem _ hx)]
    simp [forceRow, ho, hh, hl, hc, hv]

lemma dropna_length {df : List RawRow} (h : allPresent df) :
    (dropna df).length = df.length := by
  rw [dropna_allPresent h, List.length_map]

lemma preprocess_false_eq (df : List RawRow) :
    preprocess_data df false =
      (List.range ((dropna df).length - 29)).map
        fun j => featAt (dropna df) (29 + j) := by
  show (List.range (dropna df).length).filterMap _ = _
  refine filterMap_range_eq _ _ 29 ?_ (dropna df).length
  intro i
  by_cases h29 : 29 ≤ i
  · have h0 : ¬ i = 0 := by omega
    have h5 : 5 ≤ i + 1 := by omega
    have h30 : 30 ≤ i + 1 := by omega
    rw [if_pos h29]
    simp only [pctChange, rollingMean, if_neg h0, if_pos h5, if_pos h30, featAt]
    norm_num
  · have h30 : ¬ 30 ≤ i + 1 := by omega
    rw [if_neg h29]
    have : rollingMean 30 ((dropna df).map OhlcvRow.close) i = none := by
      rw [rollingMean, if_neg h30]
    rw [this]
    cases pctChange ((dropna df).map OhlcvRow.close) i <;>
      cases rollingMean 5 ((dropna df).map OhlcvRow.close) i <;> rfl

lemma preprocess_true_eq (df : List RawRow) :
    preprocess_data df true = scaleRows (preprocess_data df false) := rfl

lemma scaleRows_length (rows : List FeatRow) :
    (scaleRows rows).length = rows.length := by
  simp [scaleRows]

/-! ## Claim C1 -/

/-- Claim C1, corrected: for every input table with no pre-existing
missing values, `preprocess_data` returns exactly `n - 29` rows (not
`n - 30`): the first row lost to the return shift is one of the 29 rows
lost to the 30-day rolling window, so the two losses overlap instead of
adding.  In particular 30 input rows yield 1 row and 31 yield 2. -/
theorem preprocess_data_row_count (df : List RawRow) (s : Bool)
    (h : allPresent df) :
    (preprocess_data df s).length = df.length - 29 := by
  cases s
  · rw [preprocess_false_eq, List.length_map, List.length_range,
      dropna_length h]
  · rw [preprocess_true_eq, scaleRows_length, preprocess_false_eq,
      List.length_map, List.length_range, dropna_length h]

/-- Claim C1, counterexample to the claim as stated: a clean 30-row input
table yields 1 output row, not the `30 - 30 = 0` rows the claim predicts. -/
theorem preprocess_data_thirty_rows_counterexample :
    (syntheticDf 30).length = 30 ∧ allPresent (syntheticDf 30) ∧
    (preprocess_data (syntheticDf 30) true).length ≠
      (syntheticDf 30).length - 30 :=
  ⟨rfl, by decide, by decide⟩

/-- Witness for `preprocess_data_row_count` at a concrete 31-row input. -/
theorem preprocess_data_row_count_witness :
    (preprocess_data (syntheticDf 31) true).length = (syntheticDf 31).length - 29 :=
  preprocess_data_row_count (syntheticDf 31) true (by decide)

/-! ## Claim C2 -/

/-- Claim C2, corrected: after the scaling step every scaled column of a
non-constant batch has minimum exactly 0 and maximum exactly 1; a constant
input column is mapped to all zeros (sklearn substitutes 1 for a zero
range), which is well-defined, not a divide-by-zero. -/
theorem preprocess_scaling_bounds (xs : List ℚ) (hne : xs ≠ []) :
    ((∃ a ∈ xs, ∃ b ∈ xs, a ≠ b) →
      colMin (scaleColumn xs) = 0 ∧ colMax (scaleColumn xs) = 1) ∧
    ∀ c : ℚ, (∀ x ∈ xs, x = c) → scaleColumn xs = xs.map fun _ => 0 := by
  constructor
  · rintro ⟨a, ha, b, hb, hab⟩
    exact ⟨scaleColumn_colMin hne, scaleColumn_colMax ha hb hab⟩
  · intro c hc
    have hmin : colMin xs = c := colMin_const hne hc
    have hmax : colMax xs = c := colMax_const hne hc
    unfold scaleColumn
    refine List.map_congr_left fun x hx => ?_
    rw [mmScale, hmin, hmax, if_pos rfl, hc x hx, sub_self, zero_mul]

/-- Claim C2, counterexample to the claim as stated: scaling a constant
column is well-defined and yields all zeros, not the undefined
divide-by-zero behaviour the claim asserts. -/
theorem preprocess_scaling_constant_counterexample :
    scaleColumn [(2 : ℚ), 2, 2] = [0, 0, 0] := by
  norm_num [scaleColumn, colMin, colMax, mmScale]

/-- Witness for `preprocess_scaling_bounds` at a concrete non-constant
column. -/
theorem preprocess_scaling_bounds_witness :
    colMin (scaleColumn [(0 : ℚ), 2, 1]) = 0 ∧
    colMax (scaleColumn [(0 : ℚ), 2, 1]) = 1 :=
  (preprocess_scaling_bounds [0, 2, 1] (by simp)).1
    ⟨0, by simp, 2, by simp, by norm_num⟩

/-! ## Claim C8 -/

lemma scale_subset_differs :
    (scaleColumn [(0 : ℚ), 1, 2]).getD 1 0 ≠ (scaleColumn [(1 : ℚ), 2]).getD 0 0 := by
  norm_num [scaleColumn, colMin, colMax, mmScale]

/-- Claim C8: re-applying the min-max scaling step to a non-constant batch
leaves it unchanged exactly when the batch's observed minimum is 0 and
maximum is 1 (so scaling the same batch twice equals scaling it once), and
rescaling a different subset of the data yields different values for the
same raw entry: the raw value 1 scales to one half inside the batch
`[0, 1, 2]` but to 0 inside its subset `[1, 2]`. -/
theorem minmax_scaling_idempotence (xs : List ℚ) (a b : ℚ)
    (ha : a ∈ xs) (hb : b ∈ xs) (hab : a ≠ b) :
    (scaleColumn xs = xs ↔ colMin xs = 0 ∧ colMax xs = 1) ∧
    (scaleColumn [(0 : ℚ), 1, 2]).getD 1 0 ≠ (scaleColumn [(1 : ℚ), 2]).getD 0 0 := by
  refine ⟨⟨fun hs => ?_, fun hs => ?_⟩, scale_subset_differs⟩
  · constructor
    · conv_lhs => rw [← hs]
      exact scaleColumn_colMin (List.ne_nil_of_mem ha)
    · conv_lhs => rw [← hs]
      exact scaleColumn_colMax ha hb hab
  · obtain ⟨hmin, hmax⟩ := hs
    unfold scaleColumn
    rw [hmin, hmax]
    have h1 : ∀ x ∈ xs, mmScale 0 1 x = x := by
      intro x hx
      rw [mmScale]
      norm_num
    rw [List.map_congr_left h1]
    simp

/-- Witness for `minmax_scaling_idempotence` at the concrete batch
`[0, 1, 2]`. -/
theorem minmax_scaling_idempotence_witness :
    (scaleColumn [(0 : ℚ), 1, 2] = [0, 1, 2] ↔
      colMin [(0 : ℚ), 1, 2] = 0 ∧ colMax [(0 : ℚ), 1, 2] = 1) ∧
    (scaleColumn [(0 : ℚ), 1, 2]).getD 1 0 ≠ (scaleColumn [(1 : ℚ), 2]).getD 0 0 :=
  minmax_scaling_idempotence [0, 1, 2] 0 1 (by simp) (by simp) (by norm_num)

/-! ## Claim C9 -/

/-- Claim C9: `preprocess_data` with scaling off never modifies surviving
original data: whenever output row `j` exists, its five OHLCV cells equal
the cells of input row `29 + j`; the pipeline only drops the first 29 rows
and appends the three derived columns. -/
theorem preprocess_data_preserves_originals (df : List RawRow)
    (h : allPresent df) (j : Nat) (fr : FeatRow) (r : RawRow)
    (hfr : (preprocess_data df false)[j]? = some fr)
    (hr : df[29 + j]? = some r) :
    r.«open» = some fr.«open» ∧ r.high = some fr.high ∧
    r.low = some fr.low ∧ r.close = some fr.close ∧
    r.volume = some fr.volume := by
  rw [preprocess_false_eq, List.getElem?_map] at hfr
  rcases Nat.lt_or_ge j ((dropna df).length - 29) with hj | hj
  · rw [List.getElem?_range hj] at hfr
    have hfr2 : featAt (dropna df) (29 + j) = fr := by simpa using hfr
    subst hfr2
    have hd := dropna_allPresent h
    have hget : (dropna df)[29 + j]? = some (forceRow r) := by
      rw [hd, List.getElem?_map, hr]; rfl
    have hgetD : (dropna df).getD (29 + j) default = forceRow r := by
      rw [List.getD_eq_getElem?_getD, hget]; rfl
    have hrmem : r ∈ df := List.getElem?_mem hr
    obtain ⟨o, ho⟩ := Option.isSome_iff_exists.1 (h r hrmem).1
    obtain ⟨hg, hh⟩ := Option.isSome_iff_exists.1 (h r hrmem).2.1
    obtain ⟨l, hl⟩ := Option.isSome_iff_exists.1 (h r hrmem).2.2.1
    obtain ⟨c, hc⟩ := Option.isSome_iff_exists.1 (h r hrmem).2.2.2.1
    obtain ⟨v, hv⟩ := Option.isSome_iff_exists.1 (h r hrmem).2.2.2.2
    refine ⟨?_, ?_, ?_, ?_, ?_⟩ <;>
      simp [featAt, hgetD, hget, forceRow, ho, hh, hl, hc, hv]
  · exfalso
    rw [List.getElem?_eq_none (by simpa using hj)] at hfr
    exact Option.noConfusion hfr

/-- Witness for `preprocess_data_preserves_originals`: in a concrete
31-row table, output row 0 keeps the OHLCV cells of input row 29. -/
theorem preprocess_data_preserves_originals_witness :
    (constRow 29).«open» = some (featAt (dropna (syntheticDf 31)) 29).«open» ∧
    (constRow 29).high = some (featAt (dropna (syntheticDf 31)) 29).high ∧
    (constRow 29).low = some (featAt (dropna (syntheticDf 31)) 29).low ∧
    (constRow 29).close = some (featAt (dropna (syntheticDf 31)) 29).close ∧
    (constRow 29).volume = some (featAt (dropna (syntheticDf 31)) 29).volume :=
  preprocess_data_preserves_originals (syntheticDf 31) (by decide) 0
    (featAt (dropna (syntheticDf 31)) 29) (constRow 29)
    (by rw [preprocess_false_eq, List.getElem?_map,
          List.getElem?_range (by decide)]
        rfl)
    rfl

/-! ## Claim C3 -/

/-- Claim C3: when no file exists at `MODEL_PATH`, the startup block keeps
the randomly initialized weights `initW`, only prints the missing-file
message (the service starts, nothing is raised), loads the persisted
weights when the file does exist, and every subsequent prediction request
is served with the untrained weights `initW` exactly as it would be served
with any explicitly given weights. -/
theorem model_file_missing_fallback (initW loaded : List ℚ)
    (forward : List ℚ → List ℚ → ℚ)
    (readCsv : String → Except String Table) (req : UploadReq) :
    startup initW (fun _ => none) =
      ⟨initW, ["Model file not found. Ensure the model is trained and saved."]⟩ ∧
    startup initW (fun p => if p = MODEL_PATH then some loaded else none) =
      ⟨loaded, ["Model loaded successfully."]⟩ ∧
    predict_image forward (startup initW (fun _ => none)).weights readCsv req =
      predict_image forward initW readCsv req :=
  ⟨rfl, rfl, rfl⟩

/-! ## Claim C4 -/

/-- Claim C4: `fetch_stock_data` fails exactly when the provider response
lacks the `Time Series (Daily)` key, and then its message is the fixed
prefix followed by the provider's diagnostic `Note` text, or by
`Unknown error` when the provider supplied none; when the key is present
the check raises nothing and rows are returned. -/
theorem fetch_stock_data_missing_key (symbol : String) (diag : Option String)
    (ts : List (Nat × RawRow)) :
    fetch_stock_data symbol ⟨none, diag⟩ =
      .error ("Error fetching data for " ++ symbol ++ ": " ++
        diag.getD "Unknown error") ∧
    ∃ rows, fetch_stock_data symbol ⟨some ts, diag⟩ = .ok rows :=
  ⟨rfl, _, rfl⟩

/-! ## Claim C5 -/

/-- Claim C5: whenever processing the uploaded table raises an exception
`e` (in particular when a required feature column is missing), the
`predict_image` handler catches it and answers HTTP 500 with the exception
text in the JSON error body, never a prediction response. -/
theorem predict_image_caught_exception (forward : List ℚ → List ℚ → ℚ)
    (w : List ℚ) (readCsv : String → Except String Table) (content e : String)
    (hbody : predictBody forward w readCsv content = .error e) :
    predict_image forward w readCsv ⟨some content⟩ = .serverError e ∧
    (predict_image forward w readCsv ⟨some content⟩).status = 500 ∧
    (predict_image forward w readCsv ⟨some content⟩).errorBody = some e := by
  have h1 : predict_image forward w readCsv ⟨some content⟩ = .serverError e := by
    simp only [predict_image, hbody]
  exact ⟨h1, by rw [h1]; rfl, by rw [h1]; rfl⟩

/-- Witness for `predict_image_caught_exception`: uploading a table that
is missing the `volume` column yields HTTP 500 whose error text names the
missing column. -/
theorem predict_image_caught_exception_witness :
    predict_image (fun _ _ => 0) [] (fun _ => .ok missingVolumeTable)
        ⟨some "upload.csv"⟩ = .serverError "[volume] not in index" ∧
    (predict_image (fun _ _ => 0) [] (fun _ => .ok missingVolumeTable)
        ⟨some "upload.csv"⟩).status = 500 ∧
    (predict_image (fun _ _ => 0) [] (fun _ => .ok missingVolumeTable)
        ⟨some "upload.csv"⟩).errorBody = some "[volume] not in index" :=
  predict_image_caught_exception _ _ _ _ _ rfl

/-! ## Claim C6 -/

/-- Claim C6: a request without a ticker query parameter (absent, or the
empty string that `if not ticker` also rejects) is answered with HTTP 400
and the body `Ticker symbol is required.`, and no fetch is performed: the
response does not depend on the data provider at all. -/
theorem fetch_stock_missing_ticker (provider provider2 : String → ApiResponse) :
    fetch_stock_image provider ⟨none⟩ =
      .clientError "Ticker symbol is required." ∧
    fetch_stock_image provider ⟨some ""⟩ =
      .clientError "Ticker symbol is required." ∧
    (fetch_stock_image provider ⟨none⟩).status = 400 ∧
    (fetch_stock_image provider ⟨none⟩).errorBody =
      some "Ticker symbol is required." ∧
    fetch_stock_image provider ⟨none⟩ = fetch_stock_image provider2 ⟨none⟩ ∧
    fetch_stock_image provider ⟨some ""⟩ = fetch_stock_image provider2 ⟨some ""⟩ :=
  ⟨rfl, rfl, rfl, rfl, rfl, rfl⟩

/-! ## Claim C7 -/

lemma train_qnn_eq {α : Type} (step : α → α × ℚ) (m0 : α) (epochs : Nat) :
    train_qnn step m0 epochs =
      ((stepModel step)^[epochs] m0,
       (List.range epochs).map fun j => (step ((stepModel step)^[j] m0)).2) := by
  induction epochs with
  | zero => rfl
  | succ n ih =>
    have h1 : train_qnn step m0 (n + 1) =
        ((step (train_qnn step m0 n).1).1,
         (train_qnn step m0 n).2 ++ [(step (train_qnn step m0 n).1).2]) := by
      rw [train_qnn, train_qnn, List.range_succ, List.foldl_append]
      rfl
    rw [h1, ih, List.range_succ, List.map_append]
    refine Prod.ext ?_ ?_
    · show stepModel step ((stepModel step)^[n] m0) = (stepModel step)^[n + 1] m0
      rw [Function.iterate_succ_apply']
    · rfl

/-- Claim C7: for every epoch count the training loop performs exactly
that many epochs with no early stop: the returned loss history has exactly
`epochs` entries, the `j`-th entry is the loss the `j`-th epoch recorded
(epoch order), and the returned model is the `epochs`-fold parameter
update of the initial model. -/
theorem train_qnn_runs_all_epochs {α : Type} (step : α → α × ℚ) (m0 : α)
    (epochs : Nat) :
    (train_qnn step m0 epochs).2.length = epochs ∧
    train_qnn step m0 epochs =
      ((stepModel step)^[epochs] m0,
       (List.range epochs).map fun j => (step ((stepModel step)^[j] m0)).2) :=
  ⟨by rw [train_qnn_eq]; simp, train_qnn_eq step m0 epochs⟩

/-! ## Claim C10 -/

/-- Claim C10: a POST with no part uploaded under the key `file` is
answered before the processing pipeline runs, with HTTP 400 (a client
error, not the 500 used for caught exceptions) and the body
`No file uploaded.`. -/
theorem predict_image_no_file (forward : List ℚ → List ℚ → ℚ) (w : List ℚ)
    (readCsv : String → Except String Table) :
    predict_image forward w readCsv ⟨none⟩ = .clientError "No file uploaded." ∧
    (predict_image forward w readCsv ⟨none⟩).status = 400 ∧
    (predict_image forward w readCsv ⟨none⟩).errorBody = some "No file uploaded." ∧
    (predict_image forward w readCsv ⟨none⟩).status ≠ 500 :=
  ⟨rfl, rfl, rfl, by show (400 : Nat) ≠ 500; norm_num⟩

end QFP
